import Mathlib

/- Shallow embedding of the kanban board component (src/unnamed/part_000).

   The Task, Column and board types mirror the TypeScript types.  Every
   handler is modelled as a pure function from the state it reads to the
   state it installs, following the React useState discipline of the
   source: a handler reads the current state and calls the setter once
   with the next value.  JavaScript expressions that throw (a property
   access on undefined, JSON.parse of malformed text) are modelled with
   Except Unit, the error value standing for the thrown exception. -/

namespace Kanban

structure Task where
  id : String
  content : String
  deriving DecidableEq

structure Column where
  id : String
  title : String
  tasks : List Task
  deriving DecidableEq

/-- The fixed three-empty-column default board (source lines 15-19). -/
def initialColumns : List Column :=
  [ { id := "todo", title := "To Do", tasks := [] },
    { id := "doing", title := "Doing", tasks := [] },
    { id := "done", title := "Done", tasks := [] } ]

/-- JavaScript whitespace stripped by String.prototype.trim, restricted to
the ASCII whitespace characters. -/
def jsWhitespace (c : Char) : Bool :=
  c == ' ' || c == '\t' || c == '\n' || c == '\r'

/-- Model of JavaScript String.prototype.trim: strip leading and trailing
whitespace.  (Lean's String.trim is not used because it does not reduce in
the kernel; this structurally recursive version does.) -/
def jsTrim (s : String) : String :=
  String.mk (((s.data.dropWhile jsWhitespace).reverse.dropWhile jsWhitespace).reverse)

/-- JavaScript Array.prototype.findIndex, with none for the source's -1. -/
def findIndex (p : α → Bool) : List α → Option Nat
  | [] => none
  | a :: as => if p a then some 0 else (findIndex p as).map (· + 1)

/-- In-place update of the array element at one index, as performed by the
source's mutations of a column object reached through an array index
(updatedColumns[i].tasks = ...) or through an alias into the same array
(destinationColumn.tasks.push(...)).  Out-of-range indices leave the list
unchanged. -/
def modifyCol (f : Column → Column) : Nat → List Column → List Column
  | _, [] => []
  | 0, c :: cs => f c :: cs
  | n + 1, c :: cs => c :: modifyCol f n cs

/-- handleCreateTask (source lines 65-73).  The guard is the truthiness of
newTaskContent.trim(): creation happens only when the trimmed input is
non-empty.  The created task's id interpolates Date.now(), passed here as
the clock value now; its content is the raw, untrimmed input.  The new task
is pushed onto columns[0]; on an empty column list that access would throw,
modelled as an error (unreachable: the board always has three columns).
Returns the next (columns, newTaskContent) pair; on success the input
buffer is cleared. -/
def handleCreateTask (columns : List Column) (newTaskContent : String) (now : Nat) :
    Except Unit (List Column × String) :=
  if jsTrim newTaskContent ≠ "" then
    match columns with
    | [] => Except.error ()
    | c0 :: rest =>
      Except.ok
        ({ c0 with
            tasks := c0.tasks ++
              [{ id := "task-" ++ toString now, content := newTaskContent }] } :: rest, "")
  else
    Except.ok (columns, newTaskContent)

/-- The columns state observed after a create gesture: the ok value, or the
unchanged state when the handler throws before reaching setColumns. -/
def createNext (columns : List Column) (s : String) (now : Nat) : List Column :=
  match handleCreateTask columns s now with
  | Except.ok (cols, _) => cols
  | Except.error _ => columns

/-- handleDeleteTask (source lines 79-85): every column's task array is
filtered to drop the tasks whose id equals taskId. -/
def handleDeleteTask (columns : List Column) (taskId : String) : List Column :=
  columns.map (fun column =>
    { column with tasks := column.tasks.filter (fun task => task.id != taskId) })

/-- onDrop (source lines 49-63).  The source computes the index of the first
column whose tasks contain the dragged id (findIndex, -1 when absent) and
the first column whose id is the drop target (find); if the target is
missing it returns with the state unchanged; otherwise it reads
columns[sourceColumnIndex].tasks, which throws a TypeError when the index is
-1 (columns[-1] is undefined).  When the task is found, the source column's
task array is reassigned to the filtered array first, and the task is then
pushed onto the destination column object's current array, so a move within
one column lands after the filtering. -/
def onDrop (columns : List Column) (taskId : String) (columnId : String) :
    Except Unit (List Column) :=
  match findIndex (fun col => col.id == columnId) columns with
  | none => Except.ok columns
  | some di =>
    match findIndex (fun col => col.tasks.any (fun task => task.id == taskId)) columns with
    | none => Except.error ()
    | some si =>
      match columns.get? si with
      | none => Except.error ()
      | some sourceCol =>
        match sourceCol.tasks.find? (fun task => task.id == taskId) with
        | none => Except.ok columns
        | some task =>
          Except.ok
            (modifyCol (fun col => { col with tasks := col.tasks ++ [task] }) di
              (modifyCol
                (fun col => { col with tasks := col.tasks.filter (fun t => t.id != taskId) })
                si columns))

/-- The columns state observed after a drop gesture: the ok value, or the
unchanged state when the handler throws before reaching setColumns. -/
def dropNext (columns : List Column) (taskId : String) (columnId : String) : List Column :=
  match onDrop columns taskId columnId with
  | Except.ok cols => cols
  | Except.error _ => columns

/-- The board-level editing state of the component: the isEditing flag, the
id of the task being edited, and the editing buffer (source lines 24-26). -/
structure EditState where
  isEditing : Bool
  editTaskId : Option String
  editContent : String
  deriving DecidableEq

/-- handleEditTask (source lines 87-91): enters editing mode on the given
task id with its current content as the buffer. -/
def handleEditTask (taskId : String) (content : String) : EditState :=
  { isEditing := true, editTaskId := some taskId, editContent := content }

/-- Replace the content of the first task whose id matches, as the source's
findIndex followed by column.tasks[taskIndex].content = editContent does
inside one column; no change when the id is absent. -/
def updateFirst (tid : String) (content : String) : List Task → List Task
  | [] => []
  | t :: ts =>
    if t.id == tid then { t with content := content } :: ts
    else t :: updateFirst tid content ts

/-- handleSaveEdit (source lines 93-107).  The guard is the truthiness of
editTaskId && editContent.trim(): a null or empty-string id, or a buffer
that trims to empty, leaves every piece of state untouched.  Otherwise each
column replaces the content of its first task matching the id with the raw,
untrimmed buffer, and the editing state is exited (flag cleared, id reset,
buffer cleared). -/
def handleSaveEdit (columns : List Column) (es : EditState) :
    List Column × EditState :=
  match es.editTaskId with
  | none => (columns, es)
  | some tid =>
    if tid ≠ "" ∧ jsTrim es.editContent ≠ "" then
      (columns.map (fun column =>
          { column with tasks := updateFirst tid es.editContent column.tasks }),
        { isEditing := false, editTaskId := none, editContent := "" })
    else (columns, es)

/-- handleCancelEdit (source lines 109-113): exits editing mode, resetting
the flag, the edited id and the buffer, without touching the board. -/
def handleCancelEdit : EditState :=
  { isEditing := false, editTaskId := none, editContent := "" }

/-- The detail (fullscreen) view state: visibility flag and the selected
task (source lines 27-28). -/
structure ViewState where
  isFullscreenViewOpen : Bool
  selectedTask : Option Task
  deriving DecidableEq

/-- openFullscreenView (source lines 115-118). -/
def openFullscreenView (task : Task) : ViewState :=
  { isFullscreenViewOpen := true, selectedTask := some task }

/-- closeFullscreenView (source lines 120-123): the next view state after
closing, independent of the previous one. -/
def closeFullscreenView : ViewState :=
  { isFullscreenViewOpen := false, selectedTask := none }

/-- The Delete button's onClick in the detail view (source lines 223-231):
it calls handleDeleteTask(selectedTask.id) and then closeFullscreenView().
Reading selectedTask.id on a null selectedTask would throw, modelled as an
error; the button is only rendered when the view is open on a task. -/
def deleteButtonClick (columns : List Column) (vs : ViewState) :
    Except Unit (List Column × ViewState) :=
  match vs.selectedTask with
  | none => Except.error ()
  | some task => Except.ok (handleDeleteTask columns task.id, closeFullscreenView)

/-- Total number of tasks on the board, summed across all columns. -/
def totalTasks : List Column → Nat
  | [] => 0
  | c :: cs => c.tasks.length + totalTasks cs

/-- The ids of all tasks on the board, in column order then task order. -/
def taskIds : List Column → List String
  | [] => []
  | c :: cs => c.tasks.map Task.id ++ taskIds cs

/-- Abstract syntax of the JSON values exchanged with localStorage.  The
concrete text layer (JSON.stringify / JSON.parse on character strings) is
the platform's JSON library, not code of this repository; serialization is
modelled at the level of the JSON value it produces and consumes. -/
inductive Json where
  | str : String → Json
  | arr : List Json → Json
  | obj : List (String × Json) → Json

/-- The JSON value JSON.stringify produces for a task: an object with the
fields id and content, in property-creation order (source line 67). -/
def encodeTask (t : Task) : Json :=
  Json.obj [("id", Json.str t.id), ("content", Json.str t.content)]

/-- The JSON value JSON.stringify produces for a column: an object with the
fields id, title and tasks (source lines 9-13). -/
def encodeColumn (c : Column) : Json :=
  Json.obj [("id", Json.str c.id), ("title", Json.str c.title),
            ("tasks", Json.arr (c.tasks.map encodeTask))]

/-- The JSON value written to the key kanban-columns on every board change
(source line 41): the array of encoded columns. -/
def encodeBoard (columns : List Column) : Json :=
  Json.arr (columns.map encodeColumn)

/-- First field of a JSON object with the given key, as JavaScript property
lookup on a parsed object. -/
def getField (fields : List (String × Json)) (k : String) : Option Json :=
  (fields.find? (fun p => p.1 == k)).map (fun p => p.2)

/-- Modelled from the spec: the source installs the JSON.parse result as the
columns state with no validation (source line 34), so no decoder exists in
src/; this decoder reads the serialization format of spec section 6 (an
object with string fields id and content). -/
def decodeTask (j : Json) : Option Task :=
  match j with
  | Json.obj fields =>
    match getField fields "id", getField fields "content" with
    | some (Json.str i), some (Json.str c) => some { id := i, content := c }
    | _, _ => none
  | _ => none

/-- Modelled from the spec: decode a list of task objects (spec section 6). -/
def decodeTasks : List Json → Option (List Task)
  | [] => some []
  | j :: js =>
    match decodeTask j, decodeTasks js with
    | some t, some ts => some (t :: ts)
    | _, _ => none

/-- Modelled from the spec: decode a column object with string fields id and
title and a tasks array (spec section 6). -/
def decodeColumn (j : Json) : Option Column :=
  match j with
  | Json.obj fields =>
    match getField fields "id", getField fields "title", getField fields "tasks" with
    | some (Json.str i), some (Json.str t), some (Json.arr js) =>
      match decodeTasks js with
      | some ts => some { id := i, title := t, tasks := ts }
      | none => none
    | _, _, _ => none
  | _ => none

/-- Modelled from the spec: decode a list of column objects (spec section 6). -/
def decodeColumns : List Json → Option (List Column)
  | [] => some []
  | j :: js =>
    match decodeColumn j, decodeColumns js with
    | some c, some cs => some (c :: cs)
    | _, _ => none

/-- Modelled from the spec: decode a serialized board, an array of the
column records (spec section 6). -/
def decodeBoard (j : Json) : Option (List Column) :=
  match j with
  | Json.arr js => decodeColumns js
  | _ => none

/-- The initial-load effect (source lines 30-37).  The stored value at the
key kanban-columns is either absent (the state keeps the default columns),
or present; a present value is fed to JSON.parse, whose outcome is the
Except argument: a thrown SyntaxError on malformed text, or a parsed JSON
value.  The source wraps the parse in no try/catch, so the exception
propagates out of the effect, and it applies no validation to the parsed
value, so a value that is not a Board is installed as the columns state
unchecked and the component is left in a type-confused state (the very next
render of columns.map / column.tasks.map throws); both failure modes are
modelled as the error outcome, and in neither does the state become the
default board. -/
def loadBoard (saved : Option (Except Unit Json)) : Except Unit (List Column) :=
  match saved with
  | none => Except.ok initialColumns
  | some (Except.error e) => Except.error e
  | some (Except.ok j) =>
    match decodeBoard j with
    | some columns => Except.ok columns
    | none => Except.error ()

/- ### Round-trip lemmas for the persistence bridge -/

theorem decodeTask_encodeTask (t : Task) : decodeTask (encodeTask t) = some t := rfl

theorem decodeTasks_encode (ts : List Task) :
    decodeTasks (ts.map encodeTask) = some ts := by
  induction ts with
  | nil => rfl
  | cons t ts ih => simp [List.map_cons, decodeTasks, decodeTask_encodeTask, ih]

theorem decodeColumn_encodeColumn (c : Column) :
    decodeColumn (encodeColumn c) = some c := by
  show (match decodeTasks (c.tasks.map encodeTask) with
        | some ts => some { id := c.id, title := c.title, tasks := ts }
        | none => none) = some c
  rw [decodeTasks_encode]

theorem decodeColumns_encode (columns : List Column) :
    decodeColumns (columns.map encodeColumn) = some columns := by
  induction columns with
  | nil => rfl
  | cons c cs ih => simp [List.map_cons, decodeColumns, decodeColumn_encodeColumn, ih]

/- ### Structural lemmas about findIndex, modifyCol, find? and updateFirst -/

theorem findIndex_some_get (p : α → Bool) (l : List α) (i : Nat)
    (h : findIndex p l = some i) :
    ∃ a, l.get? i = some a ∧ p a = true := by
  induction l generalizing i with
  | nil => simp [findIndex] at h
  | cons a as ih =>
    by_cases hp : p a
    · simp [findIndex, hp] at h
      subst h
      exact ⟨a, rfl, hp⟩
    · simp [findIndex, hp] at h
      obtain ⟨j, hj, rfl⟩ := h
      obtain ⟨b, hb, hpb⟩ := ih j hj
      exact ⟨b, hb, hpb⟩

theorem findIndex_lt_length (p : α → Bool) (l : List α) (i : Nat)
    (h : findIndex p l = some i) : i < l.length := by
  obtain ⟨a, ha, _⟩ := findIndex_some_get p l i h
  by_contra hge
  rw [List.get?_eq_none.mpr (Nat.le_of_not_lt hge)] at ha
  exact Option.noConfusion ha

theorem findIndex_append_cons (p : α → Bool) (l1 l2 : List α) (c : α)
    (h1 : ∀ x ∈ l1, p x = false) (hc : p c = true) :
    findIndex p (l1 ++ c :: l2) = some l1.length := by
  induction l1 with
  | nil => simp [findIndex, hc]
  | cons a as ih =>
    have ha : p a = false := h1 a (List.mem_cons_self a as)
    simp [findIndex, ha, ih (fun x hx => h1 x (List.mem_cons_of_mem a hx))]

theorem get_append_cons (l1 l2 : List α) (c : α) :
    (l1 ++ c :: l2).get? l1.length = some c := by
  induction l1 with
  | nil => rfl
  | cons a as ih => simpa using ih

theorem modifyCol_length (f : Column → Column) (i : Nat) (l : List Column) :
    (modifyCol f i l).length = l.length := by
  induction l generalizing i with
  | nil => cases i <;> rfl
  | cons c cs ih =>
    cases i with
    | zero => rfl
    | succ n => simp [modifyCol, ih]

theorem modifyCol_append_cons (f : Column → Column) (l1 l2 : List Column) (c : Column) :
    modifyCol f l1.length (l1 ++ c :: l2) = l1 ++ f c :: l2 := by
  induction l1 with
  | nil => rfl
  | cons a as ih => simpa [modifyCol] using ih

theorem find?_append_cons (p : α → Bool) (l1 l2 : List α) (c : α)
    (h1 : ∀ x ∈ l1, p x = false) (hc : p c = true) :
    (l1 ++ c :: l2).find? p = some c := by
  induction l1 with
  | nil => simp [List.find?, hc]
  | cons a as ih =>
    have ha : p a = false := h1 a (List.mem_cons_self a as)
    simp [List.find?, ha, ih (fun x hx => h1 x (List.mem_cons_of_mem a hx))]

theorem updateFirst_of_not_mem (tid content : String) (ts : List Task)
    (h : ∀ t ∈ ts, t.id ≠ tid) : updateFirst tid content ts = ts := by
  induction ts with
  | nil => rfl
  | cons t ts ih =>
    have ht : (t.id == tid) = false :=
      beq_eq_false_iff_ne.mpr (h t (List.mem_cons_self t ts))
    simp [updateFirst, ht, ih (fun x hx => h x (List.mem_cons_of_mem t hx))]

theorem updateFirst_append_cons (tid content : String) (pre post : List Task) (old : Task)
    (hpre : ∀ t ∈ pre, t.id ≠ tid) (hold : old.id = tid) :
    updateFirst tid content (pre ++ old :: post) =
      pre ++ { old with content := content } :: post := by
  induction pre with
  | nil => simp [updateFirst, hold]
  | cons t ts ih =>
    have ht : (t.id == tid) = false :=
      beq_eq_false_iff_ne.mpr (hpre t (List.mem_cons_self t ts))
    simp [updateFirst, ht, ih (fun x hx => hpre x (List.mem_cons_of_mem t hx))]

theorem map_updateFirst_eq_self (tid content : String) (cols : List Column)
    (h : ∀ col ∈ cols, ∀ t ∈ col.tasks, t.id ≠ tid) :
    cols.map (fun column =>
      { column with tasks := updateFirst tid content column.tasks }) = cols := by
  induction cols with
  | nil => rfl
  | cons c cs ih =>
    rw [List.map_cons, updateFirst_of_not_mem tid content c.tasks
        (h c (List.mem_cons_self c cs)),
      ih (fun col hcol => h col (List.mem_cons_of_mem c hcol))]

/- ### Counting lemmas for the conservation property -/

theorem length_filter_ne_id (tid : String) (ts : List Task) :
    (ts.filter (fun t => t.id != tid)).length + ts.countP (fun t => t.id == tid)
      = ts.length := by
  induction ts with
  | nil => rfl
  | cons t ts ih =>
    simp only [bne] at ih ⊢
    by_cases h : (t.id == tid) = true
    · simp [List.filter_cons, List.countP_cons, h]
      omega
    · have h' : (t.id == tid) = false := Bool.eq_false_iff.mpr h
      simp [List.filter_cons, List.countP_cons, h']
      omega

theorem countP_id_eq_one (tid : String) (ts : List Task)
    (hnd : (ts.map Task.id).Nodup)
    (hany : ts.any (fun t => t.id == tid) = true) :
    ts.countP (fun t => t.id == tid) = 1 := by
  induction ts with
  | nil => simp at hany
  | cons t ts ih =>
    rw [List.map_cons, List.nodup_cons] at hnd
    by_cases h : (t.id == tid) = true
    · have htid : t.id = tid := eq_of_beq h
      have hzero : ts.countP (fun x => x.id == tid) = 0 := by
        rw [List.countP_eq_zero]
        intro x hx hxid
        exact hnd.1 (htid ▸ (eq_of_beq hxid) ▸ List.mem_map_of_mem Task.id hx)
      simp [List.countP_cons, h, hzero]
    · have h' : (t.id == tid) = false := Bool.eq_false_iff.mpr h
      have hany' : ts.any (fun x => x.id == tid) = true := by
        simpa [List.any_cons, h'] using hany
      simp [List.countP_cons, h', ih hnd.2 hany']

theorem totalTasks_modifyCol_push (task : Task) (i : Nat) (l : List Column)
    (h : i < l.length) :
    totalTasks (modifyCol (fun col => { col with tasks := col.tasks ++ [task] }) i l)
      = totalTasks l + 1 := by
  induction l generalizing i with
  | nil => simp at h
  | cons c cs ih =>
    cases i with
    | zero => simp [modifyCol, totalTasks]; omega
    | succ n =>
      have hn : n < cs.length := Nat.lt_of_succ_lt_succ h
      simp [modifyCol, totalTasks, ih n hn]; omega

theorem totalTasks_modifyCol_filter (tid : String) (i : Nat) (l : List Column)
    (c : Column) (hg : l.get? i = some c)
    (hcount : c.tasks.countP (fun t => t.id == tid) = 1) :
    totalTasks (modifyCol
        (fun col => { col with tasks := col.tasks.filter (fun t => t.id != tid) }) i l) + 1
      = totalTasks l := by
  induction l generalizing i with
  | nil => simp at hg
  | cons c0 cs ih =>
    cases i with
    | zero =>
      have hc : c0 = c := by simpa using hg
      subst hc
      have := length_filter_ne_id tid c0.tasks
      simp only [modifyCol, totalTasks]
      omega
    | succ n =>
      have hg' : cs.get? n = some c := by simpa using hg
      simp only [modifyCol, totalTasks]
      have := ih n hg'
      omega

theorem filter_remove_single (taskId : String) (pre post : List Task) (task : Task)
    (htask : task.id = taskId)
    (hpre : ∀ t ∈ pre, t.id ≠ taskId) (hpost : ∀ t ∈ post, t.id ≠ taskId) :
    (pre ++ task :: post).filter (fun t => t.id != taskId) = pre ++ post := by
  have hkeep : ∀ (l : List Task), (∀ t ∈ l, t.id ≠ taskId) →
      l.filter (fun t => t.id != taskId) = l := by
    intro l hl
    refine List.filter_eq_self.mpr (fun t ht => ?_)
    simp [bne, beq_eq_false_iff_ne.mpr (hl t ht)]
  have hdrop : (task :: post).filter (fun t => t.id != taskId)
      = post.filter (fun t => t.id != taskId) := by
    simp [List.filter_cons, bne, beq_iff_eq.mpr htask]
  rw [List.filter_append, hdrop, hkeep pre hpre, hkeep post hpost]

/- ### A characterization of onDrop in the successful case -/

theorem onDrop_eq_of (columns : List Column) (taskId columnId : String)
    (di si : Nat) (sourceCol : Column) (task : Task)
    (hdest : findIndex (fun col => col.id == columnId) columns = some di)
    (hsrc : findIndex (fun col => col.tasks.any (fun t => t.id == taskId)) columns
      = some si)
    (hg : columns.get? si = some sourceCol)
    (hfind : sourceCol.tasks.find? (fun t => t.id == taskId) = some task) :
    onDrop columns taskId columnId =
      Except.ok
        (modifyCol (fun col => { col with tasks := col.tasks ++ [task] }) di
          (modifyCol
            (fun col => { col with tasks := col.tasks.filter (fun t => t.id != taskId) })
            si columns)) := by
  unfold onDrop
  simp only [hdest, hsrc, hg, hfind]

/- ### Claim theorems -/

/-- C1: the claim demands pairwise-distinct task ids even when two create
calls observe the same clock value, but the code derives the id solely from
the clock: starting from the default board, two creates with non-blank
inputs "a" and "b" that both observe clock value 0 leave the board holding
two tasks that both carry the id "task-0", so the ids are not pairwise
distinct. -/
theorem create_same_clock_duplicate_ids :
    taskIds (createNext (createNext initialColumns "a" 0) "b" 0)
      = ["task-0", "task-0"] ∧
    ¬ (taskIds (createNext (createNext initialColumns "a" 0) "b" 0)).Nodup := by
  refine ⟨rfl, ?_⟩
  decide

/-- C2: the claim demands that a malformed stored value fall back to the
default three-empty-column board without the decoding error escaping, but
the load effect wraps JSON.parse in no try/catch: on a stored value whose
parse throws, the exception propagates past the load boundary, and the
state does not become the default board. -/
theorem loadBoard_propagates_malformed :
    loadBoard (some (Except.error ())) = Except.error () ∧
    loadBoard (some (Except.error ())) ≠ Except.ok initialColumns :=
  ⟨rfl, fun h => Except.noConfusion h⟩

/-- C3: the claim demands a silent no-op when the dragged task id is in no
column, but with the default board and an absent task id the code reads
columns[-1].tasks and throws a TypeError whenever the destination column
exists ("todo" here); only the missing-destination half behaves as claimed
(second conjunct, destination "nope"). -/
theorem onDrop_missing_task_throws :
    onDrop initialColumns "task-1" "todo" = Except.error () ∧
    onDrop initialColumns "task-1" "nope" = Except.ok initialColumns :=
  ⟨rfl, rfl⟩

/-- C4 counterexample: on the blank-trimming-but-nonblank input " hi " the
created task stores the raw text " hi ", while the claim requires the
trimmed text "hi"; the two differ. -/
theorem handleCreateTask_not_trimmed_counterexample :
    createNext initialColumns " hi " 0 =
      [ { id := "todo", title := "To Do",
          tasks := [{ id := "task-0", content := " hi " }] },
        { id := "doing", title := "Doing", tasks := [] },
        { id := "done", title := "Done", tasks := [] } ] ∧
    jsTrim " hi " = "hi" ∧ (" hi " : String) ≠ "hi" :=
  ⟨rfl, rfl, by decide⟩

/-- C4 (amended): for every input string to create-task, if the string
trims to empty the board and the input buffer are unchanged; otherwise
exactly one new task is appended to the end of the first (todo) column,
carrying the clock-derived id and, as content, the input text exactly as
entered (not trimmed), and the input buffer is cleared. -/
theorem handleCreateTask_spec (c0 : Column) (rest : List Column) (s : String)
    (now : Nat) :
    handleCreateTask (c0 :: rest) s now =
      if jsTrim s = "" then Except.ok (c0 :: rest, s)
      else Except.ok ({ c0 with tasks := c0.tasks ++
        [{ id := "task-" ++ toString now, content := s }] } :: rest, "") := by
  unfold handleCreateTask
  by_cases h : jsTrim s = "" <;> simp [h]

/-- C7: encoding a board to the serialized storage form and decoding that
form yields a board structurally equal to the original: same columns in the
same order, each with the same tasks (ids and contents) in the same
order. -/
theorem decodeBoard_encodeBoard (columns : List Column) :
    decodeBoard (encodeBoard columns) = some columns := by
  simp [encodeBoard, decodeBoard, decodeColumns_encode]

/-- C9: from every state in which the detail view is open on a task, the
Delete button's action deletes the task from the board and leaves the
detail-view state machine Closed: the visibility flag is cleared and no
task reference is retained. -/
theorem deleteButtonClick_closes_view (columns : List Column) (vs : ViewState)
    (task : Task) (hopen : vs.isFullscreenViewOpen = true)
    (hsel : vs.selectedTask = some task) :
    deleteButtonClick columns vs =
      Except.ok (handleDeleteTask columns task.id,
        { isFullscreenViewOpen := false, selectedTask := none }) := by
  simp [deleteButtonClick, hsel, closeFullscreenView]

/-- C9 witness: the Delete action on a concrete open detail view. -/
theorem deleteButtonClick_closes_view_witness :
    (⟨true, some ⟨"task-1", "x"⟩⟩ : ViewState).isFullscreenViewOpen = true ∧
    deleteButtonClick initialColumns ⟨true, some ⟨"task-1", "x"⟩⟩ =
      Except.ok (handleDeleteTask initialColumns "task-1",
        { isFullscreenViewOpen := false, selectedTask := none }) :=
  ⟨rfl, deleteButtonClick_closes_view initialColumns ⟨true, some ⟨"task-1", "x"⟩⟩
    ⟨"task-1", "x"⟩ rfl rfl⟩

/-- C5 counterexample: saving an edit whose buffer is " new " stores the raw
text " new " into the task, while the claim requires the trimmed text
"new"; the two differ. -/
theorem handleSaveEdit_not_trimmed_counterexample :
    handleSaveEdit
        [ { id := "todo", title := "To Do",
            tasks := [{ id := "task-1", content := "old" }] },
          { id := "doing", title := "Doing", tasks := [] },
          { id := "done", title := "Done", tasks := [] } ]
        ⟨true, some "task-1", " new "⟩
      = ([ { id := "todo", title := "To Do",
             tasks := [{ id := "task-1", content := " new " }] },
           { id := "doing", title := "Doing", tasks := [] },
           { id := "done", title := "Done", tasks := [] } ],
         ⟨false, none, ""⟩) ∧
    jsTrim " new " = "new" ∧ (" new " : String) ≠ "new" :=
  ⟨rfl, rfl, by decide⟩

/-- C5 (amended): if the buffer trims to empty or no task id is being
edited, save-edit leaves the board unchanged; otherwise the task with the
edited id (wherever it is across all columns, the id occurring in no other
column and no earlier task of its own column) has its content replaced by
the buffer exactly as entered (not trimmed), every other task and column is
unchanged, and the editing state is exited. -/
theorem handleSaveEdit_spec (es : EditState) :
    (∀ columns : List Column,
      (es.editTaskId = none ∨ jsTrim es.editContent = "") →
        handleSaveEdit columns es = (columns, es)) ∧
    (∀ (colsPre colsPost : List Column) (c : Column) (pre post : List Task)
        (old : Task) (tid : String),
      es.editTaskId = some tid → tid ≠ "" → jsTrim es.editContent ≠ "" →
      c.tasks = pre ++ old :: post → old.id = tid →
      (∀ t ∈ pre, t.id ≠ tid) →
      (∀ col ∈ colsPre, ∀ t ∈ col.tasks, t.id ≠ tid) →
      (∀ col ∈ colsPost, ∀ t ∈ col.tasks, t.id ≠ tid) →
      handleSaveEdit (colsPre ++ c :: colsPost) es =
        (colsPre ++
            { c with tasks := pre ++ { old with content := es.editContent } :: post } ::
            colsPost,
          { isEditing := false, editTaskId := none, editContent := "" })) := by
  constructor
  · intro columns h
    rcases h with h | h
    · simp [handleSaveEdit, h]
    · cases hid : es.editTaskId with
      | none => simp [handleSaveEdit, hid]
      | some tid => simp [handleSaveEdit, hid, h]
  · intro colsPre colsPost c pre post old tid hid htid htrim hdecomp hold hpre
      hcolsPre hcolsPost
    unfold handleSaveEdit
    simp only [hid]
    rw [if_pos ⟨htid, htrim⟩, List.map_append, List.map_cons,
      map_updateFirst_eq_self _ _ _ hcolsPre, map_updateFirst_eq_self _ _ _ hcolsPost,
      hdecomp, updateFirst_append_cons tid es.editContent pre post old hpre hold]

/-- C5 witness: a concrete successful save with an untrimmed buffer. -/
theorem handleSaveEdit_spec_witness :
    jsTrim " new " ≠ "" ∧
    handleSaveEdit
        [ { id := "todo", title := "To Do",
            tasks := [{ id := "task-1", content := "old" }] },
          { id := "doing", title := "Doing", tasks := [] } ]
        ⟨true, some "task-1", " new "⟩
      = ([ { id := "todo", title := "To Do",
             tasks := [{ id := "task-1", content := " new " }] },
           { id := "doing", title := "Doing", tasks := [] } ],
         ⟨false, none, ""⟩) := by
  refine ⟨by decide, ?_⟩
  exact (handleSaveEdit_spec ⟨true, some "task-1", " new "⟩).2 []
    [{ id := "doing", title := "Doing", tasks := [] }]
    { id := "todo", title := "To Do", tasks := [{ id := "task-1", content := "old" }] }
    [] [] { id := "task-1", content := "old" } "task-1"
    rfl (by decide) (by decide) rfl rfl (by simp) (by simp) (by decide)

/-- C8: dropping a task onto the column that already contains it (the id
occurring nowhere else on the board and the drop target being that very
column) removes the task from its position and appends it to the end of the
same column's sequence: the other tasks keep their relative order and every
other column is unchanged. -/
theorem onDrop_same_column_to_end (colsPre colsPost : List Column) (c : Column)
    (pre post : List Task) (task : Task) (taskId columnId : String)
    (htask : task.id = taskId)
    (hc : c.tasks = pre ++ task :: post)
    (hcid : c.id = columnId)
    (hpre : ∀ t ∈ pre, t.id ≠ taskId)
    (hpost : ∀ t ∈ post, t.id ≠ taskId)
    (hbefore : ∀ col ∈ colsPre, (∀ t ∈ col.tasks, t.id ≠ taskId) ∧ col.id ≠ columnId) :
    onDrop (colsPre ++ c :: colsPost) taskId columnId =
      Except.ok (colsPre ++ { c with tasks := (pre ++ post) ++ [task] } :: colsPost) := by
  have hdest : findIndex (fun col => col.id == columnId) (colsPre ++ c :: colsPost)
      = some colsPre.length :=
    findIndex_append_cons _ _ _ _
      (fun col hcol => beq_eq_false_iff_ne.mpr (hbefore col hcol).2)
      (beq_iff_eq.mpr hcid)
  have hsrc : findIndex (fun col => col.tasks.any (fun t => t.id == taskId))
      (colsPre ++ c :: colsPost) = some colsPre.length := by
    refine findIndex_append_cons _ _ _ _ (fun col hcol => ?_) ?_
    · rw [List.any_eq_false]
      intro t ht h
      exact (hbefore col hcol).1 t ht (eq_of_beq h)
    · rw [List.any_eq_true]
      refine ⟨task, ?_, beq_iff_eq.mpr htask⟩
      rw [hc]
      exact List.mem_append_right _ (List.mem_cons_self task post)
  have hget : (colsPre ++ c :: colsPost).get? colsPre.length = some c :=
    get_append_cons _ _ _
  have hfind : c.tasks.find? (fun t => t.id == taskId) = some task := by
    rw [hc]
    exact find?_append_cons _ _ _ _
      (fun t ht => beq_eq_false_iff_ne.mpr (hpre t ht))
      (beq_iff_eq.mpr htask)
  rw [onDrop_eq_of (colsPre ++ c :: colsPost) taskId columnId
      colsPre.length colsPre.length c task hdest hsrc hget hfind,
    modifyCol_append_cons, modifyCol_append_cons]
  show Except.ok (colsPre ++
      { c with tasks := (c.tasks.filter (fun t => t.id != taskId)) ++ [task] } ::
      colsPost) = _
  rw [hc, filter_remove_single taskId pre post task htask hpre hpost]

/-- C8 witness: moving the middle task of a three-task column onto its own
column sends it to the end, preserving the order of the other two tasks. -/
theorem onDrop_same_column_to_end_witness :
    onDrop
        [ { id := "todo", title := "To Do",
            tasks := [ { id := "task-1", content := "a" },
                       { id := "task-2", content := "b" },
                       { id := "task-3", content := "c" } ] },
          { id := "doing", title := "Doing", tasks := [] } ]
        "task-2" "todo"
      = Except.ok
          [ { id := "todo", title := "To Do",
              tasks := [ { id := "task-1", content := "a" },
                         { id := "task-3", content := "c" },
                         { id := "task-2", content := "b" } ] },
            { id := "doing", title := "Doing", tasks := [] } ] := by
  exact onDrop_same_column_to_end []
    [{ id := "doing", title := "Doing", tasks := [] }]
    { id := "todo", title := "To Do",
      tasks := [ { id := "task-1", content := "a" },
                 { id := "task-2", content := "b" },
                 { id := "task-3", content := "c" } ] }
    [{ id := "task-1", content := "a" }] [{ id := "task-3", content := "c" }]
    { id := "task-2", content := "b" } "task-2" "todo"
    rfl rfl rfl (by decide) (by decide) (by simp)

/-- C6 counterexample: on a board holding two tasks that share the id
"task-0" in one column (a board reachable by two create calls observing the
same clock value), moving "task-0" to "doing" filters both copies out of
the source column but appends only one, shrinking the total task count from
2 to 1. -/
theorem onDrop_count_counterexample :
    totalTasks
        [ { id := "todo", title := "To Do",
            tasks := [ { id := "task-0", content := "a" },
                       { id := "task-0", content := "b" } ] },
          { id := "doing", title := "Doing", tasks := [] },
          { id := "done", title := "Done", tasks := [] } ] = 2 ∧
    totalTasks (dropNext
        [ { id := "todo", title := "To Do",
            tasks := [ { id := "task-0", content := "a" },
                       { id := "task-0", content := "b" } ] },
          { id := "doing", title := "Doing", tasks := [] },
          { id := "done", title := "Done", tasks := [] } ]
        "task-0" "doing") = 1 :=
  ⟨rfl, rfl⟩

/-- C6 (amended): on every board in which no single column holds two tasks
with the same id (as the board's id-uniqueness invariant guarantees), the
move operation leaves the total task count across all columns unchanged;
a drop whose handler throws or no-ops leaves the state itself unchanged. -/
theorem onDrop_conserves_count (columns : List Column) (taskId columnId : String)
    (h : ∀ col ∈ columns, (col.tasks.map Task.id).Nodup) :
    totalTasks (dropNext columns taskId columnId) = totalTasks columns := by
  cases hdest : findIndex (fun col => col.id == columnId) columns with
  | none => simp [dropNext, onDrop, hdest]
  | some di =>
    cases hsrc : findIndex (fun col => col.tasks.any (fun task => task.id == taskId))
        columns with
    | none => simp [dropNext, onDrop, hdest, hsrc]
    | some si =>
      obtain ⟨sourceCol, hg, hp⟩ := findIndex_some_get _ _ _ hsrc
      have hg2 : columns[si]? = some sourceCol := by simpa using hg
      cases hfind : sourceCol.tasks.find? (fun task => task.id == taskId) with
      | none => simp [dropNext, onDrop, hdest, hsrc, hg2, hfind]
      | some task =>
        have hrw := onDrop_eq_of columns taskId columnId di si sourceCol task
          hdest hsrc hg hfind
        have hdi : di < columns.length := findIndex_lt_length _ _ _ hdest
        have hcount : sourceCol.tasks.countP (fun t => t.id == taskId) = 1 :=
          countP_id_eq_one taskId sourceCol.tasks
            (h sourceCol (List.get?_mem hg)) hp
        have h1 := totalTasks_modifyCol_filter taskId si columns sourceCol hg hcount
        have hdi2 : di < (modifyCol
            (fun col => { col with tasks := col.tasks.filter (fun t => t.id != taskId) })
            si columns).length := by
          rw [modifyCol_length]
          exact hdi
        have h2 := totalTasks_modifyCol_push task di _ hdi2
        have hnext : dropNext columns taskId columnId
            = modifyCol (fun col => { col with tasks := col.tasks ++ [task] }) di
                (modifyCol
                  (fun col =>
                    { col with tasks := col.tasks.filter (fun t => t.id != taskId) })
                  si columns) := by
          unfold dropNext
          rw [hrw]
        rw [hnext, h2]
        omega

/-- C6 witness: a concrete move between columns of a duplicate-free board
keeps the total task count unchanged. -/
theorem onDrop_conserves_count_witness :
    (∀ col ∈ ([ { id := "todo", title := "To Do",
                  tasks := [{ id := "task-1", content := "a" }] },
                { id := "doing", title := "Doing", tasks := [] },
                { id := "done", title := "Done", tasks := [] } ] : List Column),
        (col.tasks.map Task.id).Nodup) ∧
    totalTasks (dropNext
        [ { id := "todo", title := "To Do",
            tasks := [{ id := "task-1", content := "a" }] },
          { id := "doing", title := "Doing", tasks := [] },
          { id := "done", title := "Done", tasks := [] } ] "task-1" "doing")
      = totalTasks
        [ { id := "todo", title := "To Do",
            tasks := [{ id := "task-1", content := "a" }] },
          { id := "doing", title := "Doing", tasks := [] },
          { id := "done", title := "Done", tasks := [] } ] :=
  ⟨by decide, onDrop_conserves_count _ "task-1" "doing" (by decide)⟩

/-- C10: when a task id is being edited but the buffer trims to empty,
save-edit changes nothing at all: the board, the editing flag, the edited
task id and the buffer are all left exactly as they were. -/
theorem handleSaveEdit_blank_buffer_frames (columns : List Column)
    (es : EditState) (tid : String) (hid : es.editTaskId = some tid)
    (hblank : jsTrim es.editContent = "") :
    handleSaveEdit columns es = (columns, es) := by
  simp [handleSaveEdit, hid, hblank]

/-- C10 witness: a blank-buffer save on a concrete editing state keeps the
board, the flag, the id and the buffer unchanged. -/
theorem handleSaveEdit_blank_buffer_frames_witness :
    jsTrim "   " = "" ∧
    handleSaveEdit initialColumns ⟨true, some "task-1", "   "⟩
      = (initialColumns, ⟨true, some "task-1", "   "⟩) :=
  ⟨rfl, handleSaveEdit_blank_buffer_frames initialColumns
    ⟨true, some "task-1", "   "⟩ "task-1" rfl rfl⟩

end Kanban
